import Mathlib

/-!
Shallow embedding of the FHA air-quality dashboard (`src/app/app.py`).

Embedded here are the two cores the specification describes:

* the snapshot cache manager `load_data` (Dropbox revision check, conditional
  re-download, local revision marker), modelled as an explicit state machine
  over the local filesystem (`FS`) and the remote collaborator's responses
  (`Env`); reading the duckdb file is abstracted by a `readTable` function
  from the file's bytes to the table rows;
* the aggregation functions of the Streamlit views: `categorize_aqi`, the
  category distribution `cat_counts`, the summary metrics (latest-per-ZIP,
  best/worst ZIP, daily good/unhealthy percentages) and the monthly
  daily-average series.

Numeric columns (pandas floats) are modelled as rationals; Python's `round`
(banker's rounding, ties to even) is modelled exactly on rationals by
`roundHalfEven`.  Timestamps are modelled as a calendar date plus an hour,
ordered lexicographically, which is faithful to `pandas` datetime ordering
and to the `dt.date` truncation the source performs.
-/

namespace FHA

/-- Calendar date, the value of `Hour_Timestamp.dt.date` in the source. -/
structure Date where
  year : Nat
  month : Nat
  day : Nat
deriving DecidableEq

/-- Lexicographic order on dates, as real calendar dates compare. -/
def Date.leb (a b : Date) : Bool :=
  decide (a.year < b.year) ||
    (decide (a.year = b.year) &&
      (decide (a.month < b.month) ||
        (decide (a.month = b.month) && decide (a.day ≤ b.day))))

/-- Strict lexicographic order on dates. -/
def Date.ltb (a b : Date) : Bool :=
  Date.leb a b && !(a == b)

/-- One row of the `air_quality_hourly` table (§3 of the spec). -/
structure Row where
  sensor_id : Nat
  zip_code : String
  date : Date
  hour : Nat
  avg_aqi : ℚ
  avg_pm2_5 : ℚ
  latitude : ℚ
  longitude : ℚ
deriving DecidableEq

/-- Timestamp order on rows: dates first, hours within a date, as
`sort_values("Hour_Timestamp")` orders the frame. -/
def Row.tsLeb (r s : Row) : Bool :=
  Date.ltb r.date s.date || (r.date == s.date && decide (r.hour ≤ s.hour))

/-! ## Snapshot cache manager (`load_data`, app.py lines 38-78) -/

/-- Local filesystem state: contents of `/tmp/dummy_air_quality.duckdb`
(as bytes) and of the revision marker `/tmp/dummy_air_quality.rev`,
`none` when the file does not exist. -/
structure FS where
  localFile : Option (List Nat)
  revFile : Option String
deriving DecidableEq

/-- Result of `dbx.files_get_metadata`: the remote revision token, or a
raised network/auth exception. -/
inductive MetaResult where
  | ok (rev : String)
  | err
deriving DecidableEq

/-- Result of the `dbx.files_download` / `f.write(res.content)` sequence:
the full object's bytes; an exception raised by the download before
anything is written; or a write that stops partway (partial write)
before the exception surfaces. -/
inductive DlResult where
  | ok (bytes : List Nat)
  | raised
  | writeFailed (written : List Nat)
deriving DecidableEq

/-- The remote collaborator's responses for one `load_data` invocation. -/
structure Env where
  meta : MetaResult
  dl : DlResult

/-- What `load_data` produces: the dataframe of all rows, or the Python
exception that escapes (metadata lookup failure / download failure). -/
inductive Outcome where
  | table (rows : List Row)
  | metadataError
  | downloadError
deriving DecidableEq

/-- Outcome of one `load_data` call together with the filesystem state it
leaves behind and the number of `files_download` calls it performed. -/
structure LoadResult where
  outcome : Outcome
  fs : FS
  downloads : Nat
deriving DecidableEq

/-- The download branch of `load_data` (app.py lines 62-78):
`open(local_path, "wb")` truncates the cached file first, then the
download runs and its content is written; the new revision token is
written to the marker only after a successful write, and on failure the
exception propagates (there is no handler in the source). -/
def download_branch (readTable : List Nat → List Row) (remote_rev : String)
    (dl : DlResult) (fs : FS) : LoadResult :=
  match dl with
  | .ok bytes =>
      { outcome := .table (readTable bytes)
        fs := { localFile := some bytes, revFile := some remote_rev }
        downloads := 1 }
  | .raised =>
      { outcome := .downloadError
        fs := { localFile := some [], revFile := fs.revFile }
        downloads := 1 }
  | .writeFailed written =>
      { outcome := .downloadError
        fs := { localFile := some written, revFile := fs.revFile }
        downloads := 1 }

/-- The cache-freshness check and load (app.py lines 38-78): fetch the
remote revision token (an exception here propagates unhandled); if the
local file and marker both exist and the stripped marker equals the
remote token, return the local file's table with no download; otherwise
take the download branch. -/
def load_data (readTable : List Nat → List Row) (env : Env) (fs : FS) :
    LoadResult :=
  match env.meta with
  | .err => { outcome := .metadataError, fs := fs, downloads := 0 }
  | .ok remote_rev =>
    match fs.localFile, fs.revFile with
    | some bytes, some revText =>
      if revText.trim == remote_rev then
        { outcome := .table (readTable bytes), fs := fs, downloads := 0 }
      else
        download_branch readTable remote_rev env.dl fs
    | some _, none => download_branch readTable remote_rev env.dl fs
    | none, some _ => download_branch readTable remote_rev env.dl fs
    | none, none => download_branch readTable remote_rev env.dl fs

/-! ## AQI categorisation (app.py lines 189-211) -/

/-- The threshold mapping `categorize_aqi` (app.py lines 189-195). -/
def categorize_aqi (aqi : ℚ) : String :=
  if aqi ≤ 50 then "Good"
  else if aqi ≤ 100 then "Moderate"
  else if aqi ≤ 150 then "Unhealthy (Sensitive)"
  else if aqi ≤ 200 then "Unhealthy"
  else if aqi ≤ 300 then "Very Unhealthy"
  else "Hazardous"

/-- The fixed display order `category_order` (app.py lines 201-204). -/
def category_order : List String :=
  ["Good", "Moderate", "Unhealthy (Sensitive)",
   "Unhealthy", "Very Unhealthy", "Hazardous"]

/-- The category distribution of app.py lines 197-211: `value_counts`
lists each category present in the data with its count (categories with
zero rows do not appear), and the subsequent `pd.Categorical` +
`sort_values("Category")` orders those buckets by `category_order`.
The composite is: the fixed order, with each category's row count,
keeping only the categories that occur. -/
def cat_counts (rows : List Row) : List (String × Nat) :=
  (category_order.map
      (fun c => (c, rows.countP (fun r => categorize_aqi r.avg_aqi == c)))).filter
    (fun p => p.2 != 0)

/-! ## Rounding (Python `round(x, 1)`) -/

/-- Python 3 `round` to an integer: nearest integer, ties to even. -/
def roundHalfEven (x : ℚ) : ℤ :=
  if x - ⌊x⌋ < 1/2 then ⌊x⌋
  else if 1/2 < x - ⌊x⌋ then ⌊x⌋ + 1
  else if ⌊x⌋ % 2 = 0 then ⌊x⌋ else ⌊x⌋ + 1

/-- Python `round(x, 1)`: one decimal place, ties to even. -/
def round1 (x : ℚ) : ℚ :=
  (roundHalfEven (x * 10) : ℚ) / 10

/-! ## Summary metrics (app.py lines 152-181) -/

/-- Mean of a list of rationals (`Series.mean`); 0 on the empty list. -/
def meanQ (l : List ℚ) : ℚ := l.sum / l.length

/-- The last row of a list in the order of a timestamp sort: among rows
sharing the maximal timestamp the last-written one wins, which is one of
the admissible outcomes of `sort_values("Hour_Timestamp")` followed by
`tail(1)`. -/
def latestRow : List Row → Option Row
  | [] => none
  | r :: l =>
    match latestRow l with
    | none => some r
    | some b => if Row.tsLeb r b then some b else some r

/-- Distinct ZIP codes of the table. -/
def zips (rows : List Row) : List String := (rows.map Row.zip_code).dedup

/-- `filtered_df.sort_values("Hour_Timestamp").groupby("Zip_Code").tail(1)`
(app.py line 152): one latest reading per ZIP code. -/
def latest (rows : List Row) : List Row :=
  (zips rows).filterMap
    (fun z => latestRow (rows.filter (fun r => r.zip_code == z)))

/-- `idxmin` selection: the first row attaining the minimum of `f` (a row
is displaced only by a strictly smaller later one). -/
def idxminBy (f : Row → ℚ) : List Row → Option Row
  | [] => none
  | r :: l =>
    match idxminBy f l with
    | none => some r
    | some b => if f b < f r then some b else some r

/-- `idxmax` selection: the first row attaining the maximum of `f`. -/
def idxmaxBy (f : Row → ℚ) : List Row → Option Row
  | [] => none
  | r :: l =>
    match idxmaxBy f l with
    | none => some r
    | some b => if f r < f b then some b else some r

/-- `best_zip = latest.loc[latest["Avg_AQI"].idxmin()]` (app.py line 155). -/
def best_zip (rows : List Row) : Option Row :=
  idxminBy Row.avg_aqi (latest rows)

/-- `worst_zip = latest.loc[latest["Avg_AQI"].idxmax()]` (app.py line 156). -/
def worst_zip (rows : List Row) : Option Row :=
  idxmaxBy Row.avg_aqi (latest rows)

/-- `avg_aqi = round(filtered_df["Avg_AQI"].mean(), 1)` (app.py line 153). -/
def avg_aqi_metric (rows : List Row) : ℚ :=
  round1 (meanQ (rows.map Row.avg_aqi))

/-! ## Daily grouping (app.py lines 164-172 and 280-281) -/

/-- The calendar order on dates as a decidable relation, for sorting. -/
def dateLE (a b : Date) : Prop := Date.leb a b = true

instance : DecidableRel dateLE := fun a b => instDecidableEqBool (Date.leb a b) true

instance : IsTrans Date dateLE :=
  ⟨fun a b c hab hbc => by
    obtain ⟨y1, m1, d1⟩ := a
    obtain ⟨y2, m2, d2⟩ := b
    obtain ⟨y3, m3, d3⟩ := c
    simp [dateLE, Date.leb] at hab hbc ⊢
    omega⟩

instance : IsTotal Date dateLE :=
  ⟨fun a b => by
    obtain ⟨y1, m1, d1⟩ := a
    obtain ⟨y2, m2, d2⟩ := b
    simp [dateLE, Date.leb]
    omega⟩

/-- The distinct dates of the table in ascending order, as the index of
`groupby("Date")` (pandas sorts group keys ascending). -/
def dates (rows : List Row) : List Date :=
  List.insertionSort dateLE ((rows.map Row.date).dedup)

/-- `groupby("Date")["Avg_AQI"].mean()`: each distinct date, ascending,
with the mean AQI of its rows. -/
def daily_avg (rows : List Row) : List (Date × ℚ) :=
  (dates rows).map
    (fun d =>
      (d, meanQ ((rows.filter (fun r => r.date == d)).map Row.avg_aqi)))

/-- `total_days = daily_aqi.shape[0]` (app.py line 167). -/
def total_days (rows : List Row) : Nat := (daily_avg rows).length

/-- `good_days`: distinct dates whose daily mean AQI is ≤ 50 (line 168). -/
def good_days (rows : List Row) : Nat :=
  (daily_avg rows).countP (fun p => decide (p.2 ≤ 50))

/-- `unhealthy_days`: distinct dates whose daily mean AQI is ≥ 101 (line 169). -/
def unhealthy_days (rows : List Row) : Nat :=
  (daily_avg rows).countP (fun p => decide (101 ≤ p.2))

/-- `pct_good_days` (app.py line 171). -/
def pct_good_days (rows : List Row) : ℚ :=
  if 0 < total_days rows then
    round1 ((good_days rows : ℚ) / (total_days rows : ℚ) * 100)
  else 0

/-- `pct_unhealthy_days` (app.py line 172). -/
def pct_unhealthy_days (rows : List Row) : ℚ :=
  if 0 < total_days rows then
    round1 ((unhealthy_days rows : ℚ) / (total_days rows : ℚ) * 100)
  else 0

/-! ## Monthly daily-average series (app.py lines 266-281) -/

/-- Number of days of a month, as `pd.offsets.MonthEnd` computes it. -/
def daysInMonth (y m : Nat) : Nat :=
  if m = 2 then
    (if y % 4 = 0 && (y % 100 != 0 || y % 400 = 0) then 29 else 28)
  else if m = 4 || m = 6 || m = 9 || m = 11 then 30 else 31

/-- Membership of a date in the closed interval
[first day, last day] of a month (app.py lines 268-274). -/
def inMonth (y m : Nat) (d : Date) : Bool :=
  Date.leb ⟨y, m, 1⟩ d && Date.leb d ⟨y, m, daysInMonth y m⟩

/-- The monthly daily-average series (app.py lines 266-281): filter to the
month's closed date interval, group by date, mean AQI per date,
ascending by date; empty when no rows fall in the month. -/
def monthly_daily_series (rows : List Row) (y m : Nat) : List (Date × ℚ) :=
  daily_avg (rows.filter (fun r => inMonth y m r.date))

/-! ## Concrete example data used by the spec's worked examples -/

/-- 2024-01-15, the first example date of §8 of the spec. -/
def exd1 : Date := ⟨2024, 1, 15⟩

/-- 2024-01-16, the second example date of §8 of the spec. -/
def exd2 : Date := ⟨2024, 1, 16⟩

/-- A reading of AQI 40 on 2024-01-15 (monthly-series example). -/
def exRowJan15 : Row := ⟨1, "93701", exd1, 0, 40, 9, 0, 0⟩

/-- A reading of AQI 60 on 2024-01-16 (monthly-series example). -/
def exRowJan16 : Row := ⟨2, "93702", exd2, 0, 60, 9, 0, 0⟩

/-- ZIP A's single reading, AQI 30 at the earlier timestamp t1. -/
def exRowA : Row := ⟨1, "A", exd1, 1, 30, 9, 0, 0⟩

/-- ZIP B's single reading, AQI 90 at the later timestamp t2. -/
def exRowB : Row := ⟨2, "B", exd1, 2, 90, 9, 0, 0⟩

/-- The freshness test of app.py lines 52-55 as one predicate: the local
file and marker both exist and the stripped marker equals the remote
token. -/
def freshb (fs : FS) (rv : String) : Bool :=
  match fs.localFile, fs.revFile with
  | some _, some s => s.trim == rv
  | some _, none => false
  | none, some _ => false
  | none, none => false

end FHA

namespace FHA

attribute [local semireducible] Rat.mul Rat.inv Rat.add Rat.sub

/-- When the freshness test fails, `load_data` runs the download branch. -/
theorem load_data_stale (readTable : List Nat → List Row) (env : Env)
    (fs : FS) (rv : String) (hmeta : env.meta = .ok rv)
    (hstale : freshb fs rv = false) :
    load_data readTable env fs = download_branch readTable rv env.dl fs := by
  obtain ⟨meta, dl⟩ := env
  obtain ⟨lf, rf⟩ := fs
  cases hmeta
  cases lf <;> cases rf <;> simp_all [load_data, freshb]

/-- C1: if the local cached file and the local revision marker both exist
and the marker's stored (stripped) token equals the remote revision
token, `load_data` performs zero download calls and returns exactly the
rows of the existing local file, leaving the filesystem unchanged. -/
theorem load_data_fresh_no_download (readTable : List Nat → List Row)
    (env : Env) (fs : FS) (bytes : List Nat) (revText rv : String)
    (hfile : fs.localFile = some bytes) (hrev : fs.revFile = some revText)
    (hmeta : env.meta = .ok rv) (heq : revText.trim = rv) :
    load_data readTable env fs =
      { outcome := .table (readTable bytes), fs := fs, downloads := 0 } := by
  obtain ⟨meta, dl⟩ := env
  obtain ⟨lf, rf⟩ := fs
  cases hmeta
  simp only [Option.some.injEq] at hfile hrev
  subst hfile hrev
  simp [load_data, heq]

theorem load_data_fresh_no_download_witness :
    load_data (fun _ => []) ⟨.ok "r1", .raised⟩ ⟨some [7], some "r1"⟩ =
      { outcome := .table [], fs := ⟨some [7], some "r1"⟩, downloads := 0 } :=
  load_data_fresh_no_download _ _ _ [7] "r1" "r1" rfl rfl rfl
    (by with_unfolding_all rfl)

/-- C2 (counterexample): a download failure does not leave the local
cache file byte-identical to its pre-attempt state: with a cached file
`[1, 2, 3]`, marker `"old"`, remote token `"new"` and a download that
raises, the file afterwards holds `[]` (the `open(local_path, "wb")`
truncation), not `[1, 2, 3]`. -/
theorem load_data_download_failure_clobbers_cache :
    (load_data (fun _ => []) ⟨.ok "new", .raised⟩
        ⟨some [1, 2, 3], some "old"⟩).fs ≠ (⟨some [1, 2, 3], some "old"⟩ : FS) ∧
    (load_data (fun _ => []) ⟨.ok "new", .raised⟩
        ⟨some [1, 2, 3], some "old"⟩).outcome = .downloadError := by
  have h : load_data (fun _ => []) ⟨.ok "new", .raised⟩
      ⟨some [1, 2, 3], some "old"⟩ =
      { outcome := .downloadError, fs := ⟨some [], some "old"⟩, downloads := 1 } := by
    with_unfolding_all rfl
  rw [h]
  exact ⟨by decide, rfl⟩

/-- C2 (amended): on a failed or partially-written download the failure
surfaces as a download error and the revision marker is untouched, but
the local cache file is not preserved: it is left truncated to empty
when the download raises, or holding the partially written bytes. -/
theorem load_data_download_failure_state (readTable : List Nat → List Row)
    (env : Env) (fs : FS) (rv : String) (hmeta : env.meta = .ok rv)
    (hstale : freshb fs rv = false) :
    (env.dl = .raised →
      load_data readTable env fs =
        { outcome := .downloadError, fs := ⟨some [], fs.revFile⟩, downloads := 1 }) ∧
    (∀ written, env.dl = .writeFailed written →
      load_data readTable env fs =
        { outcome := .downloadError, fs := ⟨some written, fs.revFile⟩, downloads := 1 }) := by
  rw [load_data_stale readTable env fs rv hmeta hstale]
  refine ⟨fun h => ?_, fun w h => ?_⟩ <;> rw [h] <;> rfl

theorem load_data_download_failure_state_witness :
    load_data (fun _ => []) ⟨.ok "new", .writeFailed [4]⟩ ⟨some [1, 2], some "old"⟩ =
      { outcome := .downloadError, fs := ⟨some [4], some "old"⟩, downloads := 1 } :=
  (load_data_download_failure_state _ _ _ "new" rfl
    (by with_unfolding_all rfl)).2 [4] rfl

/-- C3 (counterexample): when the remote metadata lookup fails and a
local cache exists, `load_data` does not fall back to the cache's rows:
it surfaces the metadata error. -/
theorem load_data_metadata_failure_no_fallback :
    (load_data (fun _ => [⟨1, "93701", ⟨2024, 1, 15⟩, 0, 40, 9, 0, 0⟩])
        ⟨.err, .raised⟩ ⟨some [9], some "r"⟩).outcome ≠
      .table [⟨1, "93701", ⟨2024, 1, 15⟩, 0, 40, 9, 0, 0⟩] ∧
    (load_data (fun _ => [⟨1, "93701", ⟨2024, 1, 15⟩, 0, 40, 9, 0, 0⟩])
        ⟨.err, .raised⟩ ⟨some [9], some "r"⟩).outcome = .metadataError := by
  exact ⟨by decide, rfl⟩

/-- C3 (amended): a failure of the remote metadata lookup always
propagates out of `load_data`, whether or not a local cache exists; no
download is performed and the filesystem is untouched. -/
theorem load_data_metadata_failure (readTable : List Nat → List Row)
    (env : Env) (fs : FS) (hmeta : env.meta = .err) :
    load_data readTable env fs =
      { outcome := .metadataError, fs := fs, downloads := 0 } := by
  obtain ⟨meta, dl⟩ := env
  cases hmeta
  rfl

theorem load_data_metadata_failure_witness :
    load_data (fun _ => []) ⟨.err, .raised⟩ ⟨some [9], some "r"⟩ =
      { outcome := .metadataError, fs := ⟨some [9], some "r"⟩, downloads := 0 } :=
  load_data_metadata_failure _ _ _ rfl

/-- C4: when the local marker's token differs from the remote token, or
the local file or marker is missing, `load_data` performs exactly one
download call; after a successful download the marker holds the new
remote token and the returned table is the rows of the freshly written
file. -/
theorem load_data_stale_one_download (readTable : List Nat → List Row)
    (env : Env) (fs : FS) (rv : String) (hmeta : env.meta = .ok rv)
    (hstale : freshb fs rv = false) :
    (load_data readTable env fs).downloads = 1 ∧
    (∀ bytes, env.dl = .ok bytes →
      load_data readTable env fs =
        { outcome := .table (readTable bytes),
          fs := ⟨some bytes, some rv⟩, downloads := 1 }) := by
  rw [load_data_stale readTable env fs rv hmeta hstale]
  refine ⟨?_, fun bytes h => ?_⟩
  · cases h : env.dl <;> rfl
  · rw [h]; rfl

theorem load_data_stale_one_download_witness :
    load_data (fun _ => []) ⟨.ok "new", .ok [5]⟩ ⟨none, none⟩ =
      { outcome := .table [], fs := ⟨some [5], some "new"⟩, downloads := 1 } :=
  (load_data_stale_one_download (fun _ => []) ⟨.ok "new", .ok [5]⟩
    ⟨none, none⟩ "new" rfl rfl).2 [5] rfl

/-! ## Categorisation claims -/

lemma categorize_eq_good {x : ℚ} (h : x ≤ 50) : categorize_aqi x = "Good" := by
  simp [categorize_aqi, h]

lemma categorize_eq_moderate {x : ℚ} (h1 : 50 < x) (h2 : x ≤ 100) :
    categorize_aqi x = "Moderate" := by
  unfold categorize_aqi
  rw [if_neg (not_le.mpr h1), if_pos h2]

lemma categorize_eq_usg {x : ℚ} (h1 : 100 < x) (h2 : x ≤ 150) :
    categorize_aqi x = "Unhealthy (Sensitive)" := by
  unfold categorize_aqi
  rw [if_neg (not_le.mpr (by linarith)), if_neg (not_le.mpr h1), if_pos h2]

lemma categorize_eq_unhealthy {x : ℚ} (h1 : 150 < x) (h2 : x ≤ 200) :
    categorize_aqi x = "Unhealthy" := by
  unfold categorize_aqi
  rw [if_neg (not_le.mpr (by linarith)), if_neg (not_le.mpr (by linarith)),
    if_neg (not_le.mpr h1), if_pos h2]

lemma categorize_eq_very_unhealthy {x : ℚ} (h1 : 200 < x) (h2 : x ≤ 300) :
    categorize_aqi x = "Very Unhealthy" := by
  unfold categorize_aqi
  rw [if_neg (not_le.mpr (by linarith)), if_neg (not_le.mpr (by linarith)),
    if_neg (not_le.mpr (by linarith)), if_neg (not_le.mpr h1), if_pos h2]

lemma categorize_eq_hazardous {x : ℚ} (h1 : 300 < x) :
    categorize_aqi x = "Hazardous" := by
  unfold categorize_aqi
  rw [if_neg (not_le.mpr (by linarith)), if_neg (not_le.mpr (by linarith)),
    if_neg (not_le.mpr (by linarith)), if_neg (not_le.mpr (by linarith)),
    if_neg (not_le.mpr h1)]

/-- C5: `categorize_aqi` maps AQI values by inclusive upper band
boundaries: ≤50 Good, (50, 100] Moderate, (100, 150] Unhealthy
(Sensitive), (150, 200] Unhealthy, (200, 300] Very Unhealthy, over 300
Hazardous, with the exact boundary values 50, 51, 100, 101, 150, 200,
300 and 301 landing as the spec lists them. -/
theorem categorize_aqi_bands :
    (∀ x : ℚ,
      (x ≤ 50 → categorize_aqi x = "Good") ∧
      (50 < x → x ≤ 100 → categorize_aqi x = "Moderate") ∧
      (100 < x → x ≤ 150 → categorize_aqi x = "Unhealthy (Sensitive)") ∧
      (150 < x → x ≤ 200 → categorize_aqi x = "Unhealthy") ∧
      (200 < x → x ≤ 300 → categorize_aqi x = "Very Unhealthy") ∧
      (300 < x → categorize_aqi x = "Hazardous")) ∧
    categorize_aqi 50 = "Good" ∧ categorize_aqi 51 = "Moderate" ∧
    categorize_aqi 100 = "Moderate" ∧
    categorize_aqi 101 = "Unhealthy (Sensitive)" ∧
    categorize_aqi 150 = "Unhealthy (Sensitive)" ∧
    categorize_aqi 200 = "Unhealthy" ∧
    categorize_aqi 300 = "Very Unhealthy" ∧
    categorize_aqi 301 = "Hazardous" := by
  refine ⟨fun x => ⟨categorize_eq_good, categorize_eq_moderate,
    categorize_eq_usg, categorize_eq_unhealthy, categorize_eq_very_unhealthy,
    categorize_eq_hazardous⟩, ?_, ?_, ?_, ?_, ?_, ?_, ?_, ?_⟩ <;> decide

theorem categorize_aqi_bands_witness :
    categorize_aqi 75 = "Moderate" :=
  (categorize_aqi_bands.1 75).2.1 (by decide) (by decide)

/-- C10: `categorize_aqi` is total over the rationals: every input is
mapped to one of the six categories, and every input ≤ 50 — in
particular every negative input — is classified as Good. -/
theorem categorize_aqi_total_fn :
    ∀ x : ℚ,
      (categorize_aqi x = "Good" ∨ categorize_aqi x = "Moderate" ∨
       categorize_aqi x = "Unhealthy (Sensitive)" ∨
       categorize_aqi x = "Unhealthy" ∨
       categorize_aqi x = "Very Unhealthy" ∨
       categorize_aqi x = "Hazardous") ∧
      (x ≤ 50 → categorize_aqi x = "Good") := by
  intro x
  refine ⟨?_, categorize_eq_good⟩
  unfold categorize_aqi
  split_ifs <;> simp

theorem categorize_aqi_total_fn_witness :
    categorize_aqi (-7) = "Good" :=
  (categorize_aqi_total_fn (-7)).2 (by decide)

/-! ## Category distribution (C6) -/

lemma categorize_six (x : ℚ) :
    categorize_aqi x = "Good" ∨ categorize_aqi x = "Moderate" ∨
    categorize_aqi x = "Unhealthy (Sensitive)" ∨
    categorize_aqi x = "Unhealthy" ∨ categorize_aqi x = "Very Unhealthy" ∨
    categorize_aqi x = "Hazardous" := by
  unfold categorize_aqi
  split_ifs <;> simp

lemma sum_category_counts (rows : List Row) :
    (category_order.map
        (fun c => rows.countP (fun r => categorize_aqi r.avg_aqi == c))).sum
      = rows.length := by
  induction rows with
  | nil => simp [category_order]
  | cons r rows ih =>
    rcases categorize_six r.avg_aqi with h | h | h | h | h | h <;>
      simp [category_order, List.countP_cons, h] at ih ⊢ <;> omega

lemma sum_snd_filter_ne (l : List (String × Nat)) :
    ((l.filter (fun p => p.2 != 0)).map Prod.snd).sum
      = (l.map Prod.snd).sum := by
  induction l with
  | nil => rfl
  | cons p l ih =>
    by_cases h : p.2 = 0 <;> simp [List.filter_cons, h, ih]

/-- C6 (counterexample): a non-empty table with one Good row yields a
single bucket, not six: the five categories with zero matching rows are
dropped by `value_counts`. -/
theorem cat_counts_not_six_buckets :
    cat_counts [exRowJan15] = [("Good", 1)] ∧
    (cat_counts [exRowJan15]).length ≠ 6 := by
  decide

/-- C6 (amended): for every reading table the distribution lists, in the
fixed order Good, Moderate, Unhealthy (Sensitive), Unhealthy, Very
Unhealthy, Hazardous, exactly the categories having at least one
matching row, each with its row count — a category with zero matching
rows is omitted rather than emitted with count 0 — and the emitted
counts sum to the total row count. -/
theorem cat_counts_spec (rows : List Row) :
    ((cat_counts rows).map Prod.fst).Sublist category_order ∧
    ((cat_counts rows).map Prod.snd).sum = rows.length ∧
    (∀ p ∈ cat_counts rows,
        p.2 = rows.countP (fun r => categorize_aqi r.avg_aqi == p.1) ∧
        p.2 ≠ 0) ∧
    (∀ c, c ∈ category_order →
        rows.countP (fun r => categorize_aqi r.avg_aqi == c) ≠ 0 →
        (c, rows.countP (fun r => categorize_aqi r.avg_aqi == c)) ∈
          cat_counts rows) := by
  refine ⟨?_, ?_, ?_, ?_⟩
  · have h1 : List.Sublist (cat_counts rows) (category_order.map
        (fun c => (c, rows.countP (fun r => categorize_aqi r.avg_aqi == c)))) :=
      List.filter_sublist _
    have h2 := h1.map Prod.fst
    rw [List.map_map] at h2
    simpa using h2
  · rw [cat_counts, sum_snd_filter_ne, List.map_map]
    have h := sum_category_counts rows
    simpa [Function.comp] using h
  · intro p hp
    rw [cat_counts, List.mem_filter] at hp
    obtain ⟨hp1, hp2⟩ := hp
    rw [List.mem_map] at hp1
    obtain ⟨c, _hc, rfl⟩ := hp1
    exact ⟨rfl, by simpa using hp2⟩
  · intro c hc hne
    rw [cat_counts, List.mem_filter]
    exact ⟨List.mem_map_of_mem _ hc, by simpa using hne⟩

theorem cat_counts_spec_witness :
    (("Good", (1 : Nat)).2 =
      [exRowJan15].countP
        (fun r => categorize_aqi r.avg_aqi == ("Good", (1 : Nat)).1)) ∧
    ("Good", (1 : Nat)).2 ≠ 0 :=
  (cat_counts_spec [exRowJan15]).2.2.1 ("Good", 1) (by decide)

/-! ## Daily percentage bound (C9) -/

lemma roundHalfEven_le (x : ℚ) : (roundHalfEven x : ℚ) ≤ x + 1/2 := by
  have hfl : (⌊x⌋ : ℚ) ≤ x := Int.floor_le x
  unfold roundHalfEven
  split_ifs with h1 h2 h3 <;> push_cast <;> linarith

lemma roundHalfEven_eq_add_half {x : ℚ}
    (h : (roundHalfEven x : ℚ) = x + 1/2) :
    x = ⌊x⌋ + 1/2 ∧ ⌊x⌋ % 2 = 1 := by
  have hfl : (⌊x⌋ : ℚ) ≤ x := Int.floor_le x
  unfold roundHalfEven at h
  split_ifs at h with h1 h2 h3
  · exfalso; linarith
  · exfalso; push_cast at h; linarith
  · exfalso; linarith
  · push_cast at h
    exact ⟨by linarith, by omega⟩

lemma roundHalfEven_pair_le {A B : ℚ} (h : A + B ≤ 1000) :
    roundHalfEven A + roundHalfEven B ≤ 1000 := by
  by_contra hc
  push_neg at hc
  have h1001 : (1001 : ℤ) ≤ roundHalfEven A + roundHalfEven B := by omega
  have hq : (1001 : ℚ) ≤ (roundHalfEven A : ℚ) + roundHalfEven B := by
    exact_mod_cast h1001
  have hA := roundHalfEven_le A
  have hB := roundHalfEven_le B
  have heA : (roundHalfEven A : ℚ) = A + 1/2 := by linarith
  have heB : (roundHalfEven B : ℚ) = B + 1/2 := by linarith
  obtain ⟨hxA, hpA⟩ := roundHalfEven_eq_add_half heA
  obtain ⟨hxB, hpB⟩ := roundHalfEven_eq_add_half heB
  have hab : (⌊A⌋ : ℚ) + ⌊B⌋ = 999 := by linarith
  have habZ : ⌊A⌋ + ⌊B⌋ = 999 := by exact_mod_cast hab
  omega

lemma countP_disjoint_le (l : List (Date × ℚ)) :
    l.countP (fun p => decide (p.2 ≤ 50)) +
      l.countP (fun p => decide (101 ≤ p.2)) ≤ l.length := by
  induction l with
  | nil => simp
  | cons p l ih =>
    simp only [List.countP_cons, List.length_cons]
    by_cases h1 : p.2 ≤ 50 <;> by_cases h2 : (101 : ℚ) ≤ p.2 <;>
      simp [h1, h2] <;> try omega
    linarith

/-- C9: the good-day and unhealthy-day percentages (computed over
distinct dates' daily mean AQI, each rounded to one decimal, both 0 when
there are no dates) always sum to at most 100: the two daily conditions
are mutually exclusive and banker's rounding cannot push the two
percentages past the cap. -/
theorem pct_days_sum_le_100 (rows : List Row) :
    pct_good_days rows + pct_unhealthy_days rows ≤ 100 := by
  unfold pct_good_days pct_unhealthy_days
  by_cases ht : 0 < total_days rows
  · rw [if_pos ht, if_pos ht]
    unfold round1
    have htQ : (0 : ℚ) < total_days rows := by exact_mod_cast ht
    have hn : good_days rows + unhealthy_days rows ≤ total_days rows :=
      countP_disjoint_le (daily_avg rows)
    have hgu : (good_days rows : ℚ) + unhealthy_days rows ≤ total_days rows := by
      exact_mod_cast hn
    have hsum : (good_days rows : ℚ) / (total_days rows : ℚ) * 100 * 10 +
        (unhealthy_days rows : ℚ) / (total_days rows : ℚ) * 100 * 10 ≤ 1000 := by
      have hd1 : ((good_days rows : ℚ) + unhealthy_days rows) /
          (total_days rows : ℚ) ≤ 1 := (div_le_one htQ).mpr hgu
      have hd2 : (good_days rows : ℚ) / (total_days rows : ℚ) * 100 * 10 +
          (unhealthy_days rows : ℚ) / (total_days rows : ℚ) * 100 * 10 =
          ((good_days rows : ℚ) + unhealthy_days rows) /
            (total_days rows : ℚ) * 1000 := by
        ring
      rw [hd2]
      linarith
    have hpair := roundHalfEven_pair_le hsum
    have hpairQ :
        (roundHalfEven ((good_days rows : ℚ) / (total_days rows : ℚ) * 100 * 10) : ℚ) +
          (roundHalfEven ((unhealthy_days rows : ℚ) / (total_days rows : ℚ) * 100 * 10) : ℚ) ≤
          1000 := by
      exact_mod_cast hpair
    linarith
  · rw [if_neg ht, if_neg ht]
    norm_num

/-! ## Latest-per-ZIP and best/worst ZIP (C7) -/

lemma tsLeb_refl (a : Row) : a.tsLeb a = true := by
  simp [Row.tsLeb]

lemma tsLeb_total (a b : Row) : a.tsLeb b = true ∨ b.tsLeb a = true := by
  obtain ⟨s1, z1, ⟨y1, m1, e1⟩, h1, q1, w1, la1, lo1⟩ := a
  obtain ⟨s2, z2, ⟨y2, m2, e2⟩, h2, q2, w2, la2, lo2⟩ := b
  simp [Row.tsLeb, Date.ltb, Date.leb, Date.mk.injEq]
  omega

lemma tsLeb_trans {a b c : Row} (hab : a.tsLeb b = true)
    (hbc : b.tsLeb c = true) : a.tsLeb c = true := by
  obtain ⟨s1, z1, ⟨y1, m1, e1⟩, h1, q1, w1, la1, lo1⟩ := a
  obtain ⟨s2, z2, ⟨y2, m2, e2⟩, h2, q2, w2, la2, lo2⟩ := b
  obtain ⟨s3, z3, ⟨y3, m3, e3⟩, h3, q3, w3, la3, lo3⟩ := c
  simp [Row.tsLeb, Date.ltb, Date.leb, Date.mk.injEq] at hab hbc ⊢
  omega

lemma latestRow_spec (l : List Row) (hne : l ≠ []) :
    ∃ r, latestRow l = some r ∧ r ∈ l ∧ ∀ s ∈ l, s.tsLeb r = true := by
  induction l with
  | nil => exact absurd rfl hne
  | cons a l ih =>
    rcases eq_or_ne l [] with hl | hl
    · subst hl
      refine ⟨a, rfl, List.mem_singleton_self a, ?_⟩
      intro s hs
      rw [List.mem_singleton] at hs
      subst hs
      exact tsLeb_refl s
    · obtain ⟨r, hr, hmem, hmax⟩ := ih hl
      by_cases hab : a.tsLeb r = true
      · refine ⟨r, ?_, .tail _ hmem, ?_⟩
        · simp [latestRow, hr, hab]
        · intro s hs
          rcases List.mem_cons.mp hs with rfl | hs
          · exact hab
          · exact hmax s hs
      · refine ⟨a, ?_, List.mem_cons_self a l, ?_⟩
        · simp [latestRow, hr, hab]
        · intro s hs
          have hra : r.tsLeb a = true := by
            rcases tsLeb_total a r with h | h
            · exact absurd h hab
            · exact h
          rcases List.mem_cons.mp hs with rfl | hs
          · exact tsLeb_refl s
          · exact tsLeb_trans (hmax s hs) hra

lemma idxminBy_spec (f : Row → ℚ) (l : List Row) (hne : l ≠ []) :
    ∃ b, idxminBy f l = some b ∧ b ∈ l ∧ ∀ s ∈ l, f b ≤ f s := by
  induction l with
  | nil => exact absurd rfl hne
  | cons a l ih =>
    rcases eq_or_ne l [] with hl | hl
    · subst hl
      refine ⟨a, rfl, List.mem_singleton_self a, ?_⟩
      intro s hs
      rw [List.mem_singleton] at hs
      subst hs
      exact le_refl _
    · obtain ⟨b, hb, hmem, hmin⟩ := ih hl
      by_cases hab : f b < f a
      · refine ⟨b, by simp [idxminBy, hb, hab], .tail _ hmem, ?_⟩
        intro s hs
        rcases List.mem_cons.mp hs with rfl | hs
        · exact le_of_lt hab
        · exact hmin s hs
      · refine ⟨a, by simp [idxminBy, hb, hab], List.mem_cons_self a l, ?_⟩
        intro s hs
        rcases List.mem_cons.mp hs with rfl | hs
        · exact le_refl _
        · exact le_trans (not_lt.mp hab) (hmin s hs)

lemma idxmaxBy_spec (f : Row → ℚ) (l : List Row) (hne : l ≠ []) :
    ∃ b, idxmaxBy f l = some b ∧ b ∈ l ∧ ∀ s ∈ l, f s ≤ f b := by
  induction l with
  | nil => exact absurd rfl hne
  | cons a l ih =>
    rcases eq_or_ne l [] with hl | hl
    · subst hl
      refine ⟨a, rfl, List.mem_singleton_self a, ?_⟩
      intro s hs
      rw [List.mem_singleton] at hs
      subst hs
      exact le_refl _
    · obtain ⟨b, hb, hmem, hmax⟩ := ih hl
      by_cases hab : f a < f b
      · refine ⟨b, by simp [idxmaxBy, hb, hab], .tail _ hmem, ?_⟩
        intro s hs
        rcases List.mem_cons.mp hs with rfl | hs
        · exact le_of_lt hab
        · exact hmax s hs
      · refine ⟨a, by simp [idxmaxBy, hb, hab], List.mem_cons_self a l, ?_⟩
        intro s hs
        rcases List.mem_cons.mp hs with rfl | hs
        · exact le_refl _
        · exact le_trans (hmax s hs) (not_lt.mp hab)

lemma mem_latest {rows : List Row} {r : Row} (hr : r ∈ latest rows) :
    r ∈ rows ∧ ∀ s ∈ rows, s.zip_code = r.zip_code → s.tsLeb r = true := by
  unfold latest at hr
  rw [List.mem_filterMap] at hr
  obtain ⟨z, _hz, hlr⟩ := hr
  have hne : rows.filter (fun t => t.zip_code == z) ≠ [] := by
    intro h
    rw [h] at hlr
    cases hlr
  obtain ⟨r', hr', hmem, hmax⟩ := latestRow_spec _ hne
  have hrr : r' = r := Option.some.inj (hr'.symm.trans hlr)
  subst hrr
  have hmem' := List.mem_filter.mp hmem
  have hz : r'.zip_code = z := by simpa using hmem'.2
  refine ⟨hmem'.1, fun s hs hsz => ?_⟩
  refine hmax s (List.mem_filter.mpr ⟨hs, ?_⟩)
  simp [hsz, hz]

lemma latest_ne_nil {rows : List Row} (hne : rows ≠ []) :
    latest rows ≠ [] := by
  obtain ⟨a, l, rfl⟩ := List.exists_cons_of_ne_nil hne
  have hz : a.zip_code ∈ zips (a :: l) := by
    unfold zips
    rw [List.mem_dedup]
    exact List.mem_map_of_mem _ (List.mem_cons_self a l)
  have hfil : a ∈ (a :: l).filter (fun t => t.zip_code == a.zip_code) :=
    List.mem_filter.mpr ⟨List.mem_cons_self a l, by simp⟩
  have hfne : (a :: l).filter (fun t => t.zip_code == a.zip_code) ≠ [] := by
    intro h
    rw [h] at hfil
    cases hfil
  obtain ⟨r, hr, _, _⟩ := latestRow_spec _ hfne
  have hmem : r ∈ latest (a :: l) :=
    List.mem_filterMap.mpr ⟨a.zip_code, hz, hr⟩
  intro hcon
  rw [hcon] at hmem
  cases hmem

/-- C7: the summary reduces each ZIP group to a row of maximal timestamp
(`latest`), then `best_zip`/`worst_zip` select a latest-per-ZIP row of
minimal respectively maximal AQI; on the spec's two-ZIP example (A: AQI
30 at t1, B: AQI 90 at a later t2) this gives best A (30), worst B (90)
and overall average AQI 60.0. -/
theorem summary_best_worst (rows : List Row) (hne : rows ≠ []) :
    (∀ r ∈ latest rows,
        r ∈ rows ∧ ∀ s ∈ rows, s.zip_code = r.zip_code → s.tsLeb r = true) ∧
    (∃ b, best_zip rows = some b ∧ b ∈ latest rows ∧
        ∀ r ∈ latest rows, b.avg_aqi ≤ r.avg_aqi) ∧
    (∃ w, worst_zip rows = some w ∧ w ∈ latest rows ∧
        ∀ r ∈ latest rows, r.avg_aqi ≤ w.avg_aqi) ∧
    (best_zip [exRowA, exRowB] = some exRowA ∧
     worst_zip [exRowA, exRowB] = some exRowB ∧
     avg_aqi_metric [exRowA, exRowB] = 60) := by
  refine ⟨fun r hr => mem_latest hr, ?_, ?_, by decide⟩
  · exact idxminBy_spec Row.avg_aqi (latest rows) (latest_ne_nil hne)
  · exact idxmaxBy_spec Row.avg_aqi (latest rows) (latest_ne_nil hne)

theorem summary_best_worst_witness :
    best_zip [exRowA, exRowB] = some exRowA ∧
    worst_zip [exRowA, exRowB] = some exRowB ∧
    avg_aqi_metric [exRowA, exRowB] = 60 :=
  (summary_best_worst [exRowA, exRowB] (by decide)).2.2.2

/-! ## Monthly daily-average series (C8) -/

lemma dates_sorted (rows : List Row) : (dates rows).Pairwise dateLE :=
  List.sorted_insertionSort dateLE _

lemma dates_nodup (rows : List Row) : (dates rows).Nodup :=
  ((List.perm_insertionSort dateLE _).nodup_iff).mpr (List.nodup_dedup _)

lemma mem_dates {rows : List Row} {d : Date} :
    d ∈ dates rows ↔ ∃ r, r ∈ rows ∧ r.date = d := by
  unfold dates
  rw [List.mem_insertionSort, List.mem_dedup, List.mem_map]

lemma dates_sorted_strict (rows : List Row) :
    (dates rows).Pairwise (fun a b => Date.ltb a b = true) := by
  refine ((dates_sorted rows).and (dates_nodup rows)).imp ?_
  rintro a b ⟨h1, h2⟩
  unfold dateLE at h1
  unfold Date.ltb
  rw [Bool.and_eq_true]
  refine ⟨h1, ?_⟩
  rw [Bool.not_eq_true', beq_eq_false_iff_ne]
  exact h2

lemma filter_filter_date {rows : List Row} {y m : Nat} {d : Date}
    (hd : inMonth y m d = true) :
    ((rows.filter (fun r => inMonth y m r.date)).filter
        (fun r => r.date == d))
      = rows.filter (fun r => r.date == d) := by
  rw [List.filter_filter]
  refine List.filter_congr ?_
  intro r _
  by_cases h : r.date = d
  · simp [h, hd]
  · simp [h]

/-- C8: the monthly series keeps exactly the rows whose date lies in the
closed interval [first day, last day] of the month, averages `Avg_AQI`
per calendar date, and lists the (date, mean) pairs strictly ascending
by date; when no rows fall in the month it is the empty sequence, and on
the spec's example (AQI 40 on 2024-01-15, AQI 60 on 2024-01-16) it is
[(2024-01-15, 40), (2024-01-16, 60)] for January 2024 and [] for
February 2024. -/
theorem monthly_daily_series_spec (rows : List Row) (y m : Nat) :
    (monthly_daily_series rows y m).Pairwise
        (fun p q => Date.ltb p.1 q.1 = true) ∧
    (∀ p ∈ monthly_daily_series rows y m,
        inMonth y m p.1 = true ∧ (∃ r, r ∈ rows ∧ r.date = p.1) ∧
        p.2 = meanQ ((rows.filter (fun r => r.date == p.1)).map Row.avg_aqi)) ∧
    (∀ r ∈ rows, inMonth y m r.date = true →
        ∃ v, (r.date, v) ∈ monthly_daily_series rows y m) ∧
    (rows.filter (fun r => inMonth y m r.date) = [] →
        monthly_daily_series rows y m = []) ∧
    (monthly_daily_series [exRowJan15, exRowJan16] 2024 1 =
        [(exd1, 40), (exd2, 60)] ∧
     monthly_daily_series [exRowJan15, exRowJan16] 2024 2 = []) := by
  refine ⟨?_, ?_, ?_, ?_, by decide⟩
  · unfold monthly_daily_series daily_avg
    exact List.pairwise_map.mpr (dates_sorted_strict _)
  · intro p hp
    unfold monthly_daily_series daily_avg at hp
    rw [List.mem_map] at hp
    obtain ⟨d, hd, rfl⟩ := hp
    obtain ⟨r, hrF, hrd⟩ := mem_dates.mp hd
    have hrf := List.mem_filter.mp hrF
    have hin : inMonth y m d = true := by
      have h2 := hrf.2
      simp only [hrd] at h2
      exact h2
    refine ⟨hin, ⟨r, hrf.1, hrd⟩, ?_⟩
    show meanQ (((rows.filter (fun t => inMonth y m t.date)).filter
        (fun t => t.date == d)).map Row.avg_aqi) = _
    rw [filter_filter_date hin]
  · intro r hr hm
    have hrF : r ∈ rows.filter (fun t => inMonth y m t.date) :=
      List.mem_filter.mpr ⟨hr, hm⟩
    have hd : r.date ∈ dates (rows.filter (fun t => inMonth y m t.date)) :=
      mem_dates.mpr ⟨r, hrF, rfl⟩
    exact ⟨_, List.mem_map_of_mem _ hd⟩
  · intro h
    unfold monthly_daily_series
    rw [h]
    rfl

theorem monthly_daily_series_spec_witness :
    ∃ v, (exRowJan15.date, v) ∈
      monthly_daily_series [exRowJan15, exRowJan16] 2024 1 :=
  (monthly_daily_series_spec [exRowJan15, exRowJan16] 2024 1).2.2.1 exRowJan15
    (by decide) (by decide)

end FHA
